import Mathlib

/-!
Verification development for the pybedca repository: a shallow embedding of
the BEDCA query builder (src/bedca/query.py), the response parser
(src/pybedca/parser.py) and the client facade (src/pybedca/client.py),
together with theorems settling the frozen claims about them.

XML documents are modelled structurally: an element is a tag, an attribute
list, optional text, and a list of child elements, mirroring the fragment of
xml.etree.ElementTree the code uses (SubElement construction, find/findall
over direct children, findtext, .text, .set).  `build` in the source
serializes the tree with ET.tostring followed by a minidom pretty-print,
which preserves element structure, so the structural document stands for the
serialized output in all claims about build().
-/

/-! ## XML element model (the fragment of ElementTree used by the code) -/

inductive Element : Type where
  | mk (tag : String) (attrs : List (String × String)) (text : Option String)
      (children : List Element)

def Element.tag : Element → String
  | .mk t _ _ _ => t

def Element.attrs : Element → List (String × String)
  | .mk _ a _ _ => a

def Element.text : Element → Option String
  | .mk _ _ x _ => x

def Element.children : Element → List Element
  | .mk _ _ _ c => c

/-- Attribute lookup, as in ElementTree: value of the attribute named `key`. -/
def Element.attrVal (e : Element) (key : String) : Option String :=
  ((e.attrs).find? (fun p => p.1 == key)).map (fun p => p.2)

/-- Python `element.findall(t)`: all direct children with the given tag. -/
def Element.findall (e : Element) (t : String) : List Element :=
  e.children.filter (fun c => c.tag == t)

/-- Python `element.find(t)`: the first direct child with the given tag. -/
def Element.find (e : Element) (t : String) : Option Element :=
  (e.findall t).head?

/-- Python `element.findtext(t)`: `None` when no such child exists, else the
child's text with `None` text read as the empty string. -/
def Element.findtext (e : Element) (t : String) : Option String :=
  (e.find t).map (fun c => c.text.getD "")

/-! ## Attribute and relation vocabulary (src/bedca/query.py) -/

/-- Enum `BedcaAttribute` from src/bedca/query.py: every queryable field. -/
inductive BedcaAttribute : Type where
  | ID | SPANISH_NAME | ENGLISH_NAME | SCIENTIFIC_NAME | LANGUAL | FOODEX_CODE
  | MAIN_LEVEL_CODE | CODE_LEVEL_1 | NAME_LEVEL_1 | CODE_SUBLEVEL | CODE_LEVEL_2
  | NAME_LEVEL_2 | DESCRIPTION_ES | DESCRIPTION_EN | PHOTO | EDIBLE_PORTION
  | ORIGIN | PUBLIC
  | COMPONENT_ID | COMPONENT_NAME_ES | COMPONENT_NAME_EN | EURNAME
  | COMPONENT_GROUP_ID | GLOSSARY_ES | GLOSSARY_EN | GROUP_NAME_ES | GROUP_NAME_EN
  | BEST_LOCATION | VALUE_UNIT | MOEX | STANDARD_DEVIATION | MIN_VALUE | MAX_VALUE
  | N_VALUE | UNIT_ID | UNIT_NAME_ES | UNIT_NAME_EN | VALUE_TYPE
  | VALUE_TYPE_DESC_ES | VALUE_TYPE_DESC_EN | MEASURE_UNIT_ID
  | MEASURE_UNIT_DESC_ES | MEASURE_UNIT_DESC_EN | REFERENCE_ID | CITATION
  | ACQUISITION_TYPE_ES | ACQUISITION_TYPE_EN | PUBLICATION_TYPE_ES
  | PUBLICATION_TYPE_EN | METHOD_ID | METHOD_TYPE_ES | METHOD_TYPE_EN
  | METHOD_DESC_ES | METHOD_DESC_EN | METHOD_NAME_ES | METHOD_NAME_EN
  | METHOD_HEADER_ES | METHOD_HEADER_EN
  deriving DecidableEq

/-- String value of each `BedcaAttribute` member (the StrEnum values). -/
def BedcaAttribute.val : BedcaAttribute → String
  | .ID => "f_id"
  | .SPANISH_NAME => "f_ori_name"
  | .ENGLISH_NAME => "f_eng_name"
  | .SCIENTIFIC_NAME => "sci_name"
  | .LANGUAL => "langual"
  | .FOODEX_CODE => "foodexcode"
  | .MAIN_LEVEL_CODE => "mainlevelcode"
  | .CODE_LEVEL_1 => "codlevel1"
  | .NAME_LEVEL_1 => "namelevel1"
  | .CODE_SUBLEVEL => "codsublevel"
  | .CODE_LEVEL_2 => "codlevel2"
  | .NAME_LEVEL_2 => "namelevel2"
  | .DESCRIPTION_ES => "f_des_esp"
  | .DESCRIPTION_EN => "f_des_ing"
  | .PHOTO => "photo"
  | .EDIBLE_PORTION => "edible_portion"
  | .ORIGIN => "f_origen"
  | .PUBLIC => "publico"
  | .COMPONENT_ID => "c_id"
  | .COMPONENT_NAME_ES => "c_ori_name"
  | .COMPONENT_NAME_EN => "c_eng_name"
  | .EURNAME => "eur_name"
  | .COMPONENT_GROUP_ID => "componentgroup_id"
  | .GLOSSARY_ES => "glos_esp"
  | .GLOSSARY_EN => "glos_ing"
  | .GROUP_NAME_ES => "cg_descripcion"
  | .GROUP_NAME_EN => "cg_description"
  | .BEST_LOCATION => "best_location"
  | .VALUE_UNIT => "v_unit"
  | .MOEX => "moex"
  | .STANDARD_DEVIATION => "stdv"
  | .MIN_VALUE => "min"
  | .MAX_VALUE => "max"
  | .N_VALUE => "v_n"
  | .UNIT_ID => "u_id"
  | .UNIT_NAME_ES => "u_descripcion"
  | .UNIT_NAME_EN => "u_description"
  | .VALUE_TYPE => "value_type"
  | .VALUE_TYPE_DESC_ES => "vt_descripcion"
  | .VALUE_TYPE_DESC_EN => "vt_description"
  | .MEASURE_UNIT_ID => "mu_id"
  | .MEASURE_UNIT_DESC_ES => "mu_descripcion"
  | .MEASURE_UNIT_DESC_EN => "mu_description"
  | .REFERENCE_ID => "ref_id"
  | .CITATION => "citation"
  | .ACQUISITION_TYPE_ES => "at_descripcion"
  | .ACQUISITION_TYPE_EN => "at_description"
  | .PUBLICATION_TYPE_ES => "pt_descripcion"
  | .PUBLICATION_TYPE_EN => "pt_description"
  | .METHOD_ID => "method_id"
  | .METHOD_TYPE_ES => "mt_descripcion"
  | .METHOD_TYPE_EN => "mt_description"
  | .METHOD_DESC_ES => "m_descripcion"
  | .METHOD_DESC_EN => "m_description"
  | .METHOD_NAME_ES => "m_nom_esp"
  | .METHOD_NAME_EN => "m_nom_ing"
  | .METHOD_HEADER_ES => "mhd_descripcion"
  | .METHOD_HEADER_EN => "mhd_description"

/-- Enum `BedcaRelation` from src/bedca/query.py. -/
inductive BedcaRelation : Type where
  | EQUAL | LIKE | BEGINS_WITH
  deriving DecidableEq

def BedcaRelation.val : BedcaRelation → String
  | .EQUAL => "EQUAL"
  | .LIKE => "LIKE"
  | .BEGINS_WITH => "BEGINW"

/-! ## Query builder (class BedcaQueryBuilder, src/bedca/query.py)

The Python object holds a mutable ElementTree rooted at `foodquery` whose
children are: the `type` element, the `selection` element (extended by
`select`), and then the `condition`/`order` elements appended by `where` and
`order` in call order.  The builder state records exactly that. -/

inductive RootItem : Type where
  | condition (attr rel value : String)
  | order (attr : String) (ascending : Bool)
  deriving DecidableEq

structure BedcaQueryBuilder where
  level : Nat
  selection : List String
  items : List RootItem
  deriving DecidableEq

/-- Method `where` of BedcaQueryBuilder: appends one condition element. -/
def BedcaQueryBuilder.where' (b : BedcaQueryBuilder) (attr : BedcaAttribute)
    (relation : BedcaRelation) (value : String) : BedcaQueryBuilder :=
  { b with items := b.items ++ [.condition attr.val relation.val value] }

/-- Constructor `__init__(level)`: fresh tree with `type` and `selection`,
plus the injected publico condition when (and only when) level == 2. -/
def BedcaQueryBuilder.init (level : Nat) : BedcaQueryBuilder :=
  let base : BedcaQueryBuilder := ⟨level, [], []⟩
  if level = 2 then base.where' .PUBLIC .EQUAL "1" else base

/-- Method `select(*attributes)`: appends one `atribute` element per given
attribute to the `selection` element, in order, duplicates kept. -/
def BedcaQueryBuilder.select (b : BedcaQueryBuilder)
    (attributes : List BedcaAttribute) : BedcaQueryBuilder :=
  { b with selection := b.selection ++ attributes.map BedcaAttribute.val }

/-- Method `order(attribute, ascending)`: appends an `order` element. -/
def BedcaQueryBuilder.order (b : BedcaQueryBuilder) (attr : BedcaAttribute)
    (ascending : Bool) : BedcaQueryBuilder :=
  { b with items := b.items ++ [.order attr.val ascending] }

/-- The XML element a root item denotes (shape from `where`/`order`). -/
def RootItem.toElement : RootItem → Element
  | .condition a r v =>
      .mk "condition" [] none
        [.mk "cond1" [] none [.mk "atribute1" [("name", a)] none []],
         .mk "relation" [("type", r)] none [],
         .mk "cond3" [] (some v) []]
  | .order a asc =>
      .mk "order" [("ordtype", if asc then "ASC" else "DESC")] none
        [.mk "atribute3" [("name", a)] none []]

/-- Method `build()`: the serialized document, modelled structurally. -/
def BedcaQueryBuilder.build (b : BedcaQueryBuilder) : Element :=
  .mk "foodquery" [] none
    (Element.mk "type" [("level", toString b.level)] none []
      :: Element.mk "selection" [] none
          (b.selection.map (fun n => Element.mk "atribute" [("name", n)] none []))
      :: b.items.map RootItem.toElement)

/-! ## Structural views of a serialized query document -/

/-- Level attribute of the document's `type` element. -/
def typeLevel (doc : Element) : Option String :=
  (doc.find "type").bind (fun e => e.attrVal "level")

/-- Names listed under the document's `selection` element, in order. -/
def selections (doc : Element) : List (Option String) :=
  match doc.find "selection" with
  | none => []
  | some s => (s.findall "atribute").map (fun a => a.attrVal "name")

/-- The (attribute name, relation type, literal value) of one condition. -/
def condTriple (c : Element) : Option String × Option String × Option String :=
  (((c.find "cond1").bind (fun e => e.find "atribute1")).bind
      (fun e => e.attrVal "name"),
   (c.find "relation").bind (fun e => e.attrVal "type"),
   (c.find "cond3").bind Element.text)

/-- All condition elements of the document, in order, as triples. -/
def conditions (doc : Element) : List (Option String × Option String × Option String) :=
  (doc.findall "condition").map condTriple

/-- The (direction token, attribute name) of one order element. -/
def sortPair (o : Element) : Option String × Option String :=
  (o.attrVal "ordtype", (o.find "atribute3").bind (fun e => e.attrVal "name"))

/-- All order elements of the document, as (direction token, attribute name). -/
def sortSpecs (doc : Element) : List (Option String × Option String) :=
  (doc.findall "order").map sortPair

/-- Number of conditions asserting publico EQUAL "1" (the public-visibility
condition injected for detail-level-2 queries). -/
def publicoConditionCount (doc : Element) : Nat :=
  (conditions doc).countP (fun tr => tr == (some "publico", some "EQUAL", some "1"))

/-! ## Call-sequence helpers for quantifying over builder usage -/

/-- Apply a sequence of explicit `where` calls, in order. -/
def applyWheres (b : BedcaQueryBuilder)
    (cs : List (BedcaAttribute × BedcaRelation × String)) : BedcaQueryBuilder :=
  cs.foldl (fun acc c => acc.where' c.1 c.2.1 c.2.2) b

/-- Apply a sequence of `order` calls, in order. -/
def applySortCalls (b : BedcaQueryBuilder)
    (os : List (BedcaAttribute × Bool)) : BedcaQueryBuilder :=
  os.foldl (fun acc o => acc.order o.1 o.2) b

/-- One `select` or `where` call, for quantifying over call sequences. -/
inductive SWCall : Type where
  | sel (attrs : List BedcaAttribute)
  | whr (attr : BedcaAttribute) (rel : BedcaRelation) (value : String)
  deriving DecidableEq

/-- Apply a sequence of `select`/`where` calls, in order. -/
def applySWCalls (b : BedcaQueryBuilder) (calls : List SWCall) : BedcaQueryBuilder :=
  calls.foldl
    (fun acc c =>
      match c with
      | .sel attrs => acc.select attrs
      | .whr a r v => acc.where' a r v) b

/-- Selection names contributed by one call. -/
def SWCall.selNames : SWCall → List String
  | .sel attrs => attrs.map BedcaAttribute.val
  | .whr _ _ _ => []

/-- Root item contributed by one call, if any. -/
def SWCall.whrItem : SWCall → Option RootItem
  | .sel _ => none
  | .whr a r v => some (.condition a.val r.val v)

/-- Condition triple contributed by one call, if any. -/
def SWCall.whrView : SWCall → Option (Option String × Option String × Option String)
  | .sel _ => none
  | .whr a r v => some (some a.val, some r.val, some v)

/-- Condition triple denoted by a root item, if it is a condition. -/
def RootItem.condView : RootItem → Option (Option String × Option String × Option String)
  | .condition a r v => some (some a, some r, some v)
  | .order _ _ => none

/-- Sort pair denoted by a root item, if it is an order. -/
def RootItem.sortView : RootItem → Option (Option String × Option String)
  | .condition _ _ _ => none
  | .order a asc => some (some (if asc then "ASC" else "DESC"), some a)

/-! ## Component vocabulary and value parsing (src/pybedca) -/

/-- Modelled from the spec: the nutrient-component enumeration
`BedcaComponent` lives in the pybedca enums module, which is not among the
provided sources; its member set is fixed by the parser's
COMPONENT_TO_FIELD_MAP (src/pybedca/parser.py), and per the spec it is a
closed, compile-time-fixed vocabulary of component names. -/
inductive BedcaComponent : Type where
  | ALCOHOL | ENERGY | FAT | PROTEIN | WATER | CARBOHYDRATE | FIBER
  | MONOUNSATURATED | POLYUNSATURATED | SATURATED | CHOLESTEROL
  | VITAMIN_A | VITAMIN_D | VITAMIN_E | FOLATE | NIACIN | RIBOFLAVIN | THIAMIN
  | VITAMIN_B12 | VITAMIN_B6 | VITAMIN_C
  | CALCIUM | IRON | POTASSIUM | MAGNESIUM | SODIUM | PHOSPHORUS | IODIDE
  | SELENIUM | ZINC
  deriving DecidableEq

/-- Modelled from the spec: `BedcaComponent(text)` resolves an upstream
component-name string against the closed vocabulary, failing (Python
ValueError) on anything outside it.  The enums module holding the literal
member strings is not among the provided sources; representative strings are
used, one per member, which is all the claims depend on. -/
def BedcaComponent.fromString : String → Option BedcaComponent
  | "alcohol" => some .ALCOHOL
  | "energy" => some .ENERGY
  | "fat" => some .FAT
  | "protein" => some .PROTEIN
  | "water" => some .WATER
  | "carbohydrate" => some .CARBOHYDRATE
  | "fiber" => some .FIBER
  | "monounsaturated fat" => some .MONOUNSATURATED
  | "polyunsaturated fat" => some .POLYUNSATURATED
  | "saturated fat" => some .SATURATED
  | "cholesterol" => some .CHOLESTEROL
  | "vitamin A" => some .VITAMIN_A
  | "vitamin D" => some .VITAMIN_D
  | "vitamin E" => some .VITAMIN_E
  | "folate" => some .FOLATE
  | "niacin" => some .NIACIN
  | "riboflavin" => some .RIBOFLAVIN
  | "thiamin" => some .THIAMIN
  | "vitamin B12" => some .VITAMIN_B12
  | "vitamin B6" => some .VITAMIN_B6
  | "vitamin C" => some .VITAMIN_C
  | "calcium" => some .CALCIUM
  | "iron" => some .IRON
  | "potassium" => some .POTASSIUM
  | "magnesium" => some .MAGNESIUM
  | "sodium" => some .SODIUM
  | "phosphorus" => some .PHOSPHORUS
  | "iodide" => some .IODIDE
  | "selenium" => some .SELENIUM
  | "zinc" => some .ZINC
  | _ => none

/-- Dict COMPONENT_TO_FIELD_MAP from src/pybedca/parser.py, as the total
function it is (it has exactly one entry per BedcaComponent member, so the
parser's `component in COMPONENT_TO_FIELD_MAP` test is always true). -/
def COMPONENT_TO_FIELD_MAP : BedcaComponent → String
  | .ALCOHOL => "alcohol"
  | .ENERGY => "energy"
  | .FAT => "fat"
  | .PROTEIN => "protein"
  | .WATER => "water"
  | .CARBOHYDRATE => "carbohydrate"
  | .FIBER => "fiber"
  | .MONOUNSATURATED => "monounsaturated_fat"
  | .POLYUNSATURATED => "polyunsaturated_fat"
  | .SATURATED => "saturated_fat"
  | .CHOLESTEROL => "cholesterol"
  | .VITAMIN_A => "vitamin_a"
  | .VITAMIN_D => "vitamin_d"
  | .VITAMIN_E => "vitamin_e"
  | .FOLATE => "folate"
  | .NIACIN => "niacin"
  | .RIBOFLAVIN => "riboflavin"
  | .THIAMIN => "thiamin"
  | .VITAMIN_B12 => "vitamin_b12"
  | .VITAMIN_B6 => "vitamin_b6"
  | .VITAMIN_C => "vitamin_c"
  | .CALCIUM => "calcium"
  | .IRON => "iron"
  | .POTASSIUM => "potassium"
  | .MAGNESIUM => "magnesium"
  | .SODIUM => "sodium"
  | .PHOSPHORUS => "phosphorus"
  | .IODIDE => "iodide"
  | .SELENIUM => "selenium"
  | .ZINC => "zinc"

/-! ## Value model (src/pybedca/models.py) -/

/-- Python value of a FoodValue: a float (modelled as a rational) or a
string such as the "trace" sentinel. -/
inductive FVal : Type where
  | num (q : ℚ)
  | str (s : String)
  deriving DecidableEq

/-- Dataclass FoodValue from src/pybedca/models.py.  `component` is Optional
because the parser's default placeholder stores None there; `unit` is the
`.text` of the v_unit element, which Python may set to None. -/
structure FoodValue where
  component : Option BedcaComponent
  value : FVal
  unit : Option String
  deriving DecidableEq

/-- Modelled from the spec: `FoodValue.from_raw` is invoked by
parse_food_value but is not defined in the provided sources; per the spec a
FoodValue is exactly the component identity, the (numeric or trace) value
and the unit, so from_raw constructs that record. -/
def FoodValue.from_raw (component : BedcaComponent) (value : FVal)
    (unit : Option String) : FoodValue :=
  ⟨some component, value, unit⟩

/-- Default placeholder `FoodValue(component=None, value=0.0, unit='')` from
parse_food (src/pybedca/parser.py line 76). -/
def defaultFoodValue : FoodValue :=
  ⟨none, .num 0, some ""⟩

/-- Errors the parser can raise: Python ValueError("No food element found in
XML") from parse_food_response, and AttributeError from calling `.text` (or
`.find`) on None when a required child element is missing. -/
inductive ParseError : Type where
  | noFoodError
  | attributeError
  deriving DecidableEq

/-! ## Model of Python float() on decimal literals -/

/-- Read a maximal run of leading decimal digits: accumulated value, number
of digits read, and the rest of the characters. -/
def readDigits : Nat → Nat → List Char → Nat × Nat × List Char
  | acc, n, c :: cs =>
      if c.isDigit then readDigits (acc * 10 + (c.toNat - 48)) (n + 1) cs
      else (acc, n, c :: cs)
  | acc, n, [] => (acc, n, [])

/-- Strip leading and trailing whitespace from a character list (the
whitespace tolerance of Python float()). -/
def stripWs (cs : List Char) : List Char :=
  ((cs.dropWhile Char.isWhitespace).reverse.dropWhile Char.isWhitespace).reverse

/-- Model of Python `float(s)` on finite decimal literals: optional
surrounding whitespace, optional sign, digits with an optional decimal
point, optional exponent part; `none` models a ValueError.  (Python also
accepts special values such as inf/nan and underscore separators; those are
outside this model and outside every claim.) -/
def pyFloat (s : String) : Option ℚ :=
  let cs := stripWs s.toList
  let signAndRest : ℚ × List Char :=
    match cs with
    | '+' :: r => (1, r)
    | '-' :: r => (-1, r)
    | r => (1, r)
  let sign := signAndRest.1
  let (ip, ni, rest1) := readDigits 0 0 signAndRest.2
  let fracAndRest : Nat × Nat × List Char :=
    match rest1 with
    | '.' :: r => readDigits 0 0 r
    | r => (0, 0, r)
  let (fp, nf, rest2) := fracAndRest
  if ni + nf = 0 then none
  else
    let mant : ℚ := sign * ((ip : ℚ) + (fp : ℚ) / (10 : ℚ) ^ nf)
    match rest2 with
    | [] => some mant
    | e :: r =>
        if e = 'e' ∨ e = 'E' then
          let esignAndRest : Int × List Char :=
            match r with
            | '+' :: r2 => (1, r2)
            | '-' :: r2 => (-1, r2)
            | r2 => (1, r2)
          let (ev, ne, rest3) := readDigits 0 0 esignAndRest.2
          if ne = 0 ∨ rest3 ≠ [] then none
          else some (mant * (10 : ℚ) ^ (esignAndRest.1 * (ev : Int)))
        else none

/-- The numeric branch of parse_food_value:
`float(value_text) if value_text else 0.0` guarded by
`except (ValueError, TypeError): value = 0.0` — a missing text, an empty
(falsy) string, or an unparsable string all give 0.0. -/
def pyFloatOrZero : Option String → ℚ
  | none => 0
  | some s => if s = "" then 0 else (pyFloat s).getD 0

/-! ## Response parser (src/pybedca/parser.py) -/

/-- The `value_type is not None and value_type.text == 'TR'` test of
parse_food_value. -/
def isTR (value_element : Element) : Bool :=
  match value_element.find "value_type" with
  | some vt => vt.text == some "TR"
  | none => false

/-- Function parse_food_value from src/pybedca/parser.py.  Returns
`ok none` for the silent skip of unrecognized components (the caught
ValueError), `error` for an uncaught Python exception, and
`ok (some (component, food_value))` otherwise, mirroring the source line by
line: resolve c_eng_name against the vocabulary, pick trace or the parsed
best_location value, read the v_unit text, and build the FoodValue. -/
def parse_food_value (value_element : Element) :
    Except ParseError (Option (BedcaComponent × FoodValue)) :=
  match value_element.find "c_eng_name" with
  | none => .error .attributeError
  | some ce =>
    match ce.text.bind BedcaComponent.fromString with
    | none => .ok none
    | some component =>
      if isTR value_element then
        match value_element.find "v_unit" with
        | none => .error .attributeError
        | some u =>
            .ok (some (component, FoodValue.from_raw component (.str "trace") u.text))
      else
        match value_element.find "best_location" with
        | none => .error .attributeError
        | some bl =>
          match value_element.find "v_unit" with
          | none => .error .attributeError
          | some u =>
              .ok (some (component,
                FoodValue.from_raw component (.num (pyFloatOrZero bl.text)) u.text))

/-- The nutrient_values dict of parse_food, as a map from field name to
FoodValue, updated in document order over the foodvalue nodes. -/
def foldValues : List Element → (String → FoodValue) →
    Except ParseError (String → FoodValue)
  | [], m => .ok m
  | v :: vs, m =>
    match parse_food_value v with
    | .error e => .error e
    | .ok none => foldValues vs m
    | .ok (some (component, food_value)) =>
        foldValues vs
          (fun k => if k = COMPONENT_TO_FIELD_MAP component then food_value else m k)

/-- Dataclass FoodNutrients from src/pybedca/models.py: the full, fixed
record of nutrient fields, every field always present. -/
structure FoodNutrients where
  alcohol : FoodValue
  energy : FoodValue
  fat : FoodValue
  protein : FoodValue
  water : FoodValue
  carbohydrate : FoodValue
  fiber : FoodValue
  monounsaturated_fat : FoodValue
  polyunsaturated_fat : FoodValue
  saturated_fat : FoodValue
  cholesterol : FoodValue
  vitamin_a : FoodValue
  vitamin_d : FoodValue
  vitamin_e : FoodValue
  folate : FoodValue
  niacin : FoodValue
  riboflavin : FoodValue
  thiamin : FoodValue
  vitamin_b12 : FoodValue
  vitamin_b6 : FoodValue
  vitamin_c : FoodValue
  calcium : FoodValue
  iron : FoodValue
  potassium : FoodValue
  magnesium : FoodValue
  sodium : FoodValue
  phosphorus : FoodValue
  iodide : FoodValue
  selenium : FoodValue
  zinc : FoodValue
  deriving DecidableEq

/-- The `FoodNutrients(**nutrient_values)` call: one field per dict key. -/
def mkFoodNutrients (m : String → FoodValue) : FoodNutrients :=
  ⟨m "alcohol", m "energy", m "fat", m "protein", m "water", m "carbohydrate",
   m "fiber", m "monounsaturated_fat", m "polyunsaturated_fat",
   m "saturated_fat", m "cholesterol", m "vitamin_a", m "vitamin_d",
   m "vitamin_e", m "folate", m "niacin", m "riboflavin", m "thiamin",
   m "vitamin_b12", m "vitamin_b6", m "vitamin_c", m "calcium", m "iron",
   m "potassium", m "magnesium", m "sodium", m "phosphorus", m "iodide",
   m "selenium", m "zinc"⟩

/-- The FoodNutrients field a component is mapped to (via
COMPONENT_TO_FIELD_MAP and the dataclass field names). -/
def FoodNutrients.field (n : FoodNutrients) : BedcaComponent → FoodValue
  | .ALCOHOL => n.alcohol
  | .ENERGY => n.energy
  | .FAT => n.fat
  | .PROTEIN => n.protein
  | .WATER => n.water
  | .CARBOHYDRATE => n.carbohydrate
  | .FIBER => n.fiber
  | .MONOUNSATURATED => n.monounsaturated_fat
  | .POLYUNSATURATED => n.polyunsaturated_fat
  | .SATURATED => n.saturated_fat
  | .CHOLESTEROL => n.cholesterol
  | .VITAMIN_A => n.vitamin_a
  | .VITAMIN_D => n.vitamin_d
  | .VITAMIN_E => n.vitamin_e
  | .FOLATE => n.folate
  | .NIACIN => n.niacin
  | .RIBOFLAVIN => n.riboflavin
  | .THIAMIN => n.thiamin
  | .VITAMIN_B12 => n.vitamin_b12
  | .VITAMIN_B6 => n.vitamin_b6
  | .VITAMIN_C => n.vitamin_c
  | .CALCIUM => n.calcium
  | .IRON => n.iron
  | .POTASSIUM => n.potassium
  | .MAGNESIUM => n.magnesium
  | .SODIUM => n.sodium
  | .PHOSPHORUS => n.phosphorus
  | .IODIDE => n.iodide
  | .SELENIUM => n.selenium
  | .ZINC => n.zinc

/-- Dataclass Food from src/pybedca/models.py; the scalar fields hold the
`.text` of the respective child elements, which may be None. -/
structure Food where
  id : Option String
  name_es : Option String
  name_en : Option String
  scientific_name : Option String
  nutrients : FoodNutrients
  deriving DecidableEq

/-- Function parse_food from src/pybedca/parser.py, in source evaluation
order: seed all nutrient fields with the default placeholder, fold the
foodvalue nodes (errors propagate), build FoodNutrients, then read the four
scalar children with `element.find(tag).text` — which raises AttributeError
(modelled as `error .attributeError`) whenever such a child is absent. -/
def parse_food (element : Element) : Except ParseError Food :=
  match foldValues (element.findall "foodvalue") (fun _ => defaultFoodValue) with
  | .error e => .error e
  | .ok m =>
    match element.find "f_id" with
    | none => .error .attributeError
    | some idEl =>
      match element.find "f_ori_name" with
      | none => .error .attributeError
      | some esEl =>
        match element.find "f_eng_name" with
        | none => .error .attributeError
        | some enEl =>
          match element.find "sci_name" with
          | none => .error .attributeError
          | some sciEl =>
            .ok ⟨idEl.text, esEl.text, enEl.text, sciEl.text, mkFoodNutrients m⟩

/-- Function parse_food_response from src/pybedca/parser.py, on the already
parsed response document (the source first runs ET.fromstring on the body):
a missing `food` child raises ValueError("No food element found in XML"). -/
def parse_food_response (root : Element) : Except ParseError Food :=
  match root.find "food" with
  | none => .error .noFoodError
  | some food_element => parse_food food_element

/-! ## Client facade (src/pybedca/client.py), pure parts -/

/-- Dataclass FoodPreview from src/pybedca/models.py: fields hold what
`findtext` returns, so None when the child is missing. -/
structure FoodPreview where
  id : Option String
  name_es : Option String
  name_en : Option String
  deriving DecidableEq

/-- The list comprehension shared by get_all_foods and search_food_by_name:
one FoodPreview per `food` element of the response, in document order. -/
def parsePreviewList (root : Element) : List FoodPreview :=
  (root.findall "food").map
    (fun food =>
      ⟨food.findtext "f_id", food.findtext "f_ori_name", food.findtext "f_eng_name"⟩)

/-- The FoodPreview built from one `food` element. -/
def previewOf (food : Element) : FoodPreview :=
  ⟨food.findtext "f_id", food.findtext "f_ori_name", food.findtext "f_eng_name"⟩

/-- Modelled from the spec: the Languages enumeration (ES, EN) of the
pybedca enums module, which is not among the provided sources; the facade
only tests equality with ES to pick the search attribute. -/
inductive Languages : Type where
  | ES | EN
  deriving DecidableEq

/-- The query document built by BedcaClient.search_food_by_name
(src/pybedca/client.py): level-1 builder, preview selection, LIKE condition
on the language's name attribute, EQUAL condition on origin, ordered by the
search attribute ascending (the builder default). -/
def searchFoodByNameQuery (search_query : String) (language : Languages) : Element :=
  let search_attribute :=
    if language = Languages.ES then BedcaAttribute.SPANISH_NAME
    else BedcaAttribute.ENGLISH_NAME
  (((((BedcaQueryBuilder.init 1).select
        [.ID, .SPANISH_NAME, .ENGLISH_NAME, .ORIGIN]).where'
        search_attribute .LIKE search_query).where'
        .ORIGIN .EQUAL "BEDCA").order search_attribute true).build

/-! ## Concrete sample documents used by witnesses and counterexamples -/

/-- A child element carrying only text. -/
def txtChild (t s : String) : Element := .mk t [] (some s) []

/-- Foodvalue node whose value_type is the trace marker and which also
carries a numeric best_location. -/
def c2TraceNode : Element :=
  .mk "foodvalue" [] none
    [txtChild "c_eng_name" "zinc", txtChild "value_type" "TR",
     txtChild "best_location" "4.2", txtChild "v_unit" "mg"]

/-- Foodvalue node with a recognized component, a non-trace value_type and a
v_unit child, but no best_location child at all. -/
def c2CexNode : Element :=
  .mk "foodvalue" [] none
    [txtChild "c_eng_name" "zinc", txtChild "value_type" "W",
     txtChild "v_unit" "mg"]

/-- Detail-response food element with all scalar children and no foodvalue
nodes. -/
def c3Doc : Element :=
  .mk "food" [] none
    [txtChild "f_id" "1", txtChild "f_ori_name" "Manzana",
     txtChild "f_eng_name" "Apple", txtChild "sci_name" "Malus domestica"]

/-- The Food that parsing c3Doc yields. -/
def c3Food : Food :=
  ⟨some "1", some "Manzana", some "Apple", some "Malus domestica",
   mkFoodNutrients (fun _ => defaultFoodValue)⟩

/-- A response document with no `food` child at all. -/
def c4EmptyDoc : Element :=
  .mk "foodresponse" [] none [.mk "count" [] (some "0") []]

/-- Food element whose sci_name child is present but carries no text. -/
def c6SciDoc : Element :=
  .mk "food" [] none
    [txtChild "f_id" "3", txtChild "f_ori_name" "Uva",
     txtChild "f_eng_name" "Grape", .mk "sci_name" [] none []]

/-- The Food that parsing c6SciDoc yields. -/
def c6SciFood : Food :=
  ⟨some "3", some "Uva", some "Grape", none,
   mkFoodNutrients (fun _ => defaultFoodValue)⟩

/-- Food element that lacks the sci_name child entirely. -/
def c6NoSciDoc : Element :=
  .mk "food" [] none
    [txtChild "f_id" "2", txtChild "f_ori_name" "Pera",
     txtChild "f_eng_name" "Pear"]

/-- Scalar children of the C7 sample food element. -/
def c7Kids : List Element :=
  [txtChild "f_id" "5", txtChild "f_ori_name" "Pan",
   txtChild "f_eng_name" "Bread", .mk "sci_name" [] none []]

/-- Foodvalue node whose component name is outside the vocabulary. -/
def c7UnknownNode : Element :=
  .mk "foodvalue" [] none
    [txtChild "c_eng_name" "starch", txtChild "best_location" "12.0",
     txtChild "v_unit" "g"]

/-- First food record of the C9 sample list response. -/
def c9Food1 : Element :=
  .mk "food" [] none
    [txtChild "f_id" "10", txtChild "f_ori_name" "Manzana",
     txtChild "f_eng_name" "Apple"]

/-- Second food record of the C9 sample list response. -/
def c9Food2 : Element :=
  .mk "food" [] none
    [txtChild "f_id" "11", txtChild "f_ori_name" "Pera",
     txtChild "f_eng_name" "Pear"]

/-- List response carrying exactly two food records. -/
def c9ListDoc : Element :=
  .mk "foodresponse" [] none [c9Food1, c9Food2]

/-- First zinc foodvalue node of the C10 sample. -/
def c10Node1 : Element :=
  .mk "foodvalue" [] none
    [txtChild "c_eng_name" "zinc", txtChild "best_location" "1.5",
     txtChild "v_unit" "mg"]

/-- Second zinc foodvalue node of the C10 sample. -/
def c10Node2 : Element :=
  .mk "foodvalue" [] none
    [txtChild "c_eng_name" "zinc", txtChild "best_location" "9.5",
     txtChild "v_unit" "mg"]

/-- Detail food element carrying two foodvalue nodes for the same component. -/
def c10Doc : Element :=
  .mk "food" [] none
    [txtChild "f_id" "7", txtChild "f_ori_name" "Queso",
     txtChild "f_eng_name" "Cheese", .mk "sci_name" [] none [],
     c10Node1, c10Node2]

/-- The nutrient map that folding c10Doc's foodvalue nodes produces: the
update for the second zinc node shadows the one for the first. -/
def c10Map : String → FoodValue := fun k =>
  if k = "zinc" then ⟨some .ZINC, .num (pyFloatOrZero (some "9.5")), some "mg"⟩
  else if k = "zinc" then ⟨some .ZINC, .num (pyFloatOrZero (some "1.5")), some "mg"⟩
  else defaultFoodValue

/-- The Food that parsing c10Doc yields. -/
def c10Food : Food :=
  ⟨some "7", some "Queso", some "Cheese", none, mkFoodNutrients c10Map⟩

/-! ## Builder view lemmas -/

theorem filter_cond_of_items (items : List RootItem) :
    (((items.map RootItem.toElement).filter
        (fun e => e.tag == "condition")).map condTriple)
      = items.filterMap RootItem.condView := by
  induction items with
  | nil => rfl
  | cons it rest ih =>
    cases it with
    | condition a r v =>
      simp only [List.map_cons, List.filterMap_cons, RootItem.condView]
      rw [List.filter_cons_of_pos (by rfl)]
      simp only [List.map_cons, ih]
      rfl
    | order a asc =>
      simp only [List.map_cons, List.filterMap_cons, RootItem.condView]
      rw [List.filter_cons_of_neg (by simp [RootItem.toElement, Element.tag])]
      exact ih

theorem filter_order_of_items (items : List RootItem) :
    (((items.map RootItem.toElement).filter
        (fun e => e.tag == "order")).map sortPair)
      = items.filterMap RootItem.sortView := by
  induction items with
  | nil => rfl
  | cons it rest ih =>
    cases it with
    | condition a r v =>
      simp only [List.map_cons, List.filterMap_cons, RootItem.sortView]
      rw [List.filter_cons_of_neg (by simp [RootItem.toElement, Element.tag])]
      exact ih
    | order a asc =>
      simp only [List.map_cons, List.filterMap_cons, RootItem.sortView]
      rw [List.filter_cons_of_pos (by rfl)]
      simp only [List.map_cons, ih]
      rfl

theorem conditions_build (b : BedcaQueryBuilder) :
    conditions b.build = b.items.filterMap RootItem.condView := by
  have h := filter_cond_of_items b.items
  simpa [conditions, BedcaQueryBuilder.build, Element.findall, Element.children,
    Element.tag, List.filter] using h

theorem sortSpecs_build (b : BedcaQueryBuilder) :
    sortSpecs b.build = b.items.filterMap RootItem.sortView := by
  have h := filter_order_of_items b.items
  simpa [sortSpecs, BedcaQueryBuilder.build, Element.findall, Element.children,
    Element.tag, List.filter] using h

theorem selections_build (b : BedcaQueryBuilder) :
    selections b.build = b.selection.map some := by
  have haux : ∀ l : List String,
      (((l.map (fun n => Element.mk "atribute" [("name", n)] none [])).filter
          (fun c => c.tag == "atribute")).map (fun a => a.attrVal "name"))
        = l.map some := by
    intro l
    induction l with
    | nil => rfl
    | cons n rest ih =>
      simp only [List.map_cons]
      rw [List.filter_cons_of_pos (by rfl)]
      simp only [List.map_cons, ih]
      rfl
  have h := haux b.selection
  simpa [selections, BedcaQueryBuilder.build, Element.find, Element.findall,
    Element.children, Element.tag, List.filter] using h

theorem typeLevel_build (b : BedcaQueryBuilder) :
    typeLevel b.build = some (toString b.level) := rfl

/-! ## Call-sequence state lemmas -/

theorem applyWheres_items (b : BedcaQueryBuilder)
    (cs : List (BedcaAttribute × BedcaRelation × String)) :
    (applyWheres b cs).items
      = b.items ++ cs.map (fun c => RootItem.condition c.1.val c.2.1.val c.2.2) := by
  induction cs generalizing b with
  | nil => simp [applyWheres]
  | cons c rest ih =>
    simp only [applyWheres, List.foldl_cons, List.map_cons]
    have h := ih (b.where' c.1 c.2.1 c.2.2)
    simp only [applyWheres] at h
    rw [h]
    simp [BedcaQueryBuilder.where', List.append_assoc]

theorem applySortCalls_items (b : BedcaQueryBuilder)
    (os : List (BedcaAttribute × Bool)) :
    (applySortCalls b os).items
      = b.items ++ os.map (fun o => RootItem.order o.1.val o.2) := by
  induction os generalizing b with
  | nil => simp [applySortCalls]
  | cons o rest ih =>
    simp only [applySortCalls, List.foldl_cons, List.map_cons]
    have h := ih (b.order o.1 o.2)
    simp only [applySortCalls] at h
    rw [h]
    simp [BedcaQueryBuilder.order, List.append_assoc]

theorem applySWCalls_selection (b : BedcaQueryBuilder) (calls : List SWCall) :
    (applySWCalls b calls).selection
      = b.selection ++ (calls.map SWCall.selNames).flatten := by
  induction calls generalizing b with
  | nil => simp [applySWCalls]
  | cons c rest ih =>
    cases c with
    | sel attrs =>
      simp only [applySWCalls, List.foldl_cons, List.map_cons, List.flatten_cons]
      have h := ih (b.select attrs)
      simp only [applySWCalls] at h
      rw [h]
      simp [BedcaQueryBuilder.select, SWCall.selNames, List.append_assoc]
    | whr a r v =>
      simp only [applySWCalls, List.foldl_cons, List.map_cons, List.flatten_cons]
      have h := ih (b.where' a r v)
      simp only [applySWCalls] at h
      rw [h]
      simp [BedcaQueryBuilder.where', SWCall.selNames]

theorem applySWCalls_items (b : BedcaQueryBuilder) (calls : List SWCall) :
    (applySWCalls b calls).items = b.items ++ calls.filterMap SWCall.whrItem := by
  induction calls generalizing b with
  | nil => simp [applySWCalls]
  | cons c rest ih =>
    cases c with
    | sel attrs =>
      simp only [applySWCalls, List.foldl_cons, List.filterMap_cons, SWCall.whrItem]
      have h := ih (b.select attrs)
      simp only [applySWCalls] at h
      rw [h]
      simp [BedcaQueryBuilder.select]
    | whr a r v =>
      simp only [applySWCalls, List.foldl_cons, List.filterMap_cons, SWCall.whrItem]
      have h := ih (b.where' a r v)
      simp only [applySWCalls] at h
      rw [h]
      simp [BedcaQueryBuilder.where', List.append_assoc]

/-! ## Attribute and relation token facts -/

theorem val_eq_publico (a : BedcaAttribute) : a.val = "publico" → a = .PUBLIC := by
  cases a <;> decide

theorem val_eq_EQUAL (r : BedcaRelation) : r.val = "EQUAL" → r = .EQUAL := by
  cases r <;> decide

/-! ## Claim C1 -/

/-- C1 counterexample: the claim is false as stated.  Building a
detail-level-2 query and making one further where(PUBLIC, EQUAL, "1") call
yields a serialized document with two publico EQUAL "1" conditions, not
exactly one. -/
theorem c1_counterexample :
    publicoConditionCount
        (((BedcaQueryBuilder.init 2).where' .PUBLIC .EQUAL "1").build) = 2
    ∧ publicoConditionCount
        (((BedcaQueryBuilder.init 2).where' .PUBLIC .EQUAL "1").build) ≠ 1 := by
  constructor <;> decide

/-- C1 (amended): for every query built with detail level 2, the serialized
document produced by build() contains exactly one publico EQUAL "1"
condition, no matter how many other where(attribute, relation, value) calls
are made between construction and build(), provided none of those explicit
calls is itself where(PUBLIC, EQUAL, "1"). -/
theorem c1_publico_condition_unique
    (cs : List (BedcaAttribute × BedcaRelation × String))
    (h : (BedcaAttribute.PUBLIC, BedcaRelation.EQUAL, "1") ∉ cs) :
    publicoConditionCount ((applyWheres (BedcaQueryBuilder.init 2) cs).build) = 1 := by
  unfold publicoConditionCount
  rw [conditions_build, applyWheres_items, List.filterMap_append, List.countP_append]
  have h1 : (((BedcaQueryBuilder.init 2).items.filterMap RootItem.condView).countP
      (fun tr => tr == (some "publico", some "EQUAL", some "1"))) = 1 := by decide
  rw [h1]
  have h2 : (((cs.map (fun c => RootItem.condition c.1.val c.2.1.val c.2.2)).filterMap
      RootItem.condView).countP
      (fun tr => tr == (some "publico", some "EQUAL", some "1"))) = 0 := by
    rw [List.countP_eq_zero]
    intro tr htr hp
    rw [List.filterMap_map, List.mem_filterMap] at htr
    obtain ⟨c, hc, hview⟩ := htr
    have htr2 : tr = (some c.1.val, some c.2.1.val, some c.2.2) :=
      (Option.some.inj hview).symm
    rw [htr2, beq_iff_eq] at hp
    have ha := Option.some.inj (congrArg Prod.fst hp)
    have hr := Option.some.inj (congrArg (fun q => q.2.1) hp)
    have hv := Option.some.inj (congrArg (fun q => q.2.2) hp)
    apply h
    obtain ⟨a, r, v⟩ := c
    simp only at ha hr hv
    rw [show a = BedcaAttribute.PUBLIC from val_eq_publico a ha,
      show r = BedcaRelation.EQUAL from val_eq_EQUAL r hr, hv] at hc
    exact hc
  rw [h2]

/-- C1 witness: a concrete detail-level-2 query with one additional
non-publico where call has exactly one publico condition. -/
theorem c1_witness :
    publicoConditionCount
      ((applyWheres (BedcaQueryBuilder.init 2)
        [(BedcaAttribute.ID, BedcaRelation.EQUAL, "42")]).build) = 1 :=
  c1_publico_condition_unique [(.ID, .EQUAL, "42")] (by decide)

/-! ## Claim C5 -/

/-- C5 counterexample: the claim is false as stated.  Two order calls leave
two order elements in the serialized document — the first call's sort
specification is not replaced by the second. -/
theorem c5_counterexample :
    sortSpecs ((((BedcaQueryBuilder.init 1).order .ID true).order
        .SPANISH_NAME false).build)
      = [(some "ASC", some "f_id"), (some "DESC", some "f_ori_name")]
    ∧ (sortSpecs ((((BedcaQueryBuilder.init 1).order .ID true).order
        .SPANISH_NAME false).build)).length ≠ 1 := by
  constructor <;> decide

/-- C5 (amended): order(attribute, ascending) does not replace any prior
sort specification; each call appends one, and the serialized document
contains one sort specification per order call, in call order — a single
specification therefore appears only when order was called exactly once. -/
theorem c5_order_calls_accumulate (lvl : Nat) (os : List (BedcaAttribute × Bool)) :
    sortSpecs ((applySortCalls (BedcaQueryBuilder.init lvl) os).build)
      = os.map (fun o => (some (if o.2 then "ASC" else "DESC"), some o.1.val)) := by
  rw [sortSpecs_build, applySortCalls_items, List.filterMap_append]
  have h0 : (BedcaQueryBuilder.init lvl).items.filterMap RootItem.sortView = [] := by
    unfold BedcaQueryBuilder.init
    split <;> rfl
  rw [h0, List.nil_append, List.filterMap_map]
  exact Eq.trans
    (List.filterMap_congr (fun o _ => rfl))
    (congr_fun (List.filterMap_eq_map
      (fun o : BedcaAttribute × Bool =>
        (some (if o.2 then "ASC" else "DESC"), some o.1.val))) os)

/-! ## Claim C8 -/

/-- C8: for every query builder state and every sequence of select and where
calls, the serialized document lists the selected attribute names in exactly
the order of the select calls (flattened, duplicates kept) after any
previously selected names, and lists the condition elements in exactly the
order of the where calls after any previously added conditions. -/
theorem c8_select_where_order_preserved (b : BedcaQueryBuilder)
    (calls : List SWCall) :
    selections ((applySWCalls b calls).build)
      = selections b.build ++ ((calls.map SWCall.selNames).flatten).map some
    ∧ conditions ((applySWCalls b calls).build)
      = conditions b.build ++ calls.filterMap SWCall.whrView := by
  constructor
  · rw [selections_build, selections_build, applySWCalls_selection, List.map_append]
  · rw [conditions_build, conditions_build, applySWCalls_items,
      List.filterMap_append]
    rw [List.filterMap_filterMap]
    exact congrArg _ (List.filterMap_congr (fun c _ => by cases c <;> rfl))

/-! ## Claim C9 -/

/-- C9: search_by_name("manzana", ES) builds a level-1 query selecting
exactly [id, Spanish name, English name, origin] in that order, with one
LIKE condition on the Spanish name with value "manzana" followed by one
EQUAL condition on origin with value "BEDCA", ordered by Spanish name
ascending; and the preview-list parse of any response with exactly two food
records returns exactly two FoodPreview values in document order. -/
theorem c9_search_by_name_scenario :
    typeLevel (searchFoodByNameQuery "manzana" .ES) = some "1"
    ∧ selections (searchFoodByNameQuery "manzana" .ES)
        = [some "f_id", some "f_ori_name", some "f_eng_name", some "f_origen"]
    ∧ conditions (searchFoodByNameQuery "manzana" .ES)
        = [(some "f_ori_name", some "LIKE", some "manzana"),
           (some "f_origen", some "EQUAL", some "BEDCA")]
    ∧ sortSpecs (searchFoodByNameQuery "manzana" .ES)
        = [(some "ASC", some "f_ori_name")]
    ∧ ∀ (root f1 f2 : Element), root.findall "food" = [f1, f2] →
        parsePreviewList root = [previewOf f1, previewOf f2] := by
  refine ⟨rfl, by decide, by decide, by decide, ?_⟩
  intro root f1 f2 h
  unfold parsePreviewList
  rw [h]
  rfl

/-- C9 witness: a concrete response with two food records parses to the two
previews in document order. -/
theorem c9_witness :
    parsePreviewList c9ListDoc = [previewOf c9Food1, previewOf c9Food2] :=
  c9_search_by_name_scenario.2.2.2.2 c9ListDoc c9Food1 c9Food2 rfl

/-! ## Parser helper lemmas -/

theorem parse_food_value_error_kind (v : Element) (e : ParseError)
    (h : parse_food_value v = .error e) : e = .attributeError := by
  unfold parse_food_value at h
  repeat' split at h
  all_goals first
    | exact (Except.error.inj h).symm
    | exact absurd h (by simp)

theorem foldValues_error_kind (vs : List Element) :
    ∀ (m : String → FoodValue) (e : ParseError),
      foldValues vs m = .error e → e = .attributeError := by
  induction vs with
  | nil =>
    intro m e h
    exact absurd h (by simp [foldValues])
  | cons v rest ih =>
    intro m e h
    cases hpv : parse_food_value v with
    | error e2 =>
      simp only [foldValues, hpv] at h
      exact (Except.error.inj h) ▸ parse_food_value_error_kind v e2 hpv
    | ok o =>
      cases o with
      | none =>
        simp only [foldValues, hpv] at h
        exact ih m e h
      | some p =>
        simp only [foldValues, hpv] at h
        exact ih _ e h

theorem parse_food_error_kind (el : Element) (e : ParseError)
    (h : parse_food el = .error e) : e = .attributeError := by
  unfold parse_food at h
  split at h
  · exact (Except.error.inj h) ▸
      foldValues_error_kind (el.findall "foodvalue") (fun _ => defaultFoodValue) _
        (by assumption)
  · repeat' split at h
    all_goals first
      | exact (Except.error.inj h).symm
      | exact absurd h (by simp)

theorem parse_food_ok_elim (element : Element) (food : Food)
    (h : parse_food element = .ok food) :
    ∃ m idEl esEl enEl sciEl,
      foldValues (element.findall "foodvalue") (fun _ => defaultFoodValue) = .ok m
      ∧ element.find "f_id" = some idEl
      ∧ element.find "f_ori_name" = some esEl
      ∧ element.find "f_eng_name" = some enEl
      ∧ element.find "sci_name" = some sciEl
      ∧ food = ⟨idEl.text, esEl.text, enEl.text, sciEl.text, mkFoodNutrients m⟩ := by
  unfold parse_food at h
  repeat' split at h
  all_goals try exact (Except.noConfusion h)
  refine ⟨_, _, _, _, _, by assumption, by assumption, by assumption,
    by assumption, by assumption, ?_⟩
  exact (Except.ok.inj h).symm

theorem field_mkFoodNutrients (m : String → FoodValue) (c : BedcaComponent) :
    (mkFoodNutrients m).field c = m (COMPONENT_TO_FIELD_MAP c) := by
  cases c <;> rfl

theorem COMPONENT_TO_FIELD_MAP_inj (c c' : BedcaComponent)
    (h : COMPONENT_TO_FIELD_MAP c = COMPONENT_TO_FIELD_MAP c') : c = c' := by
  cases c <;> cases c' <;> first | rfl | exact absurd h (by decide)

theorem foldValues_append (xs ys : List Element) (m : String → FoodValue) :
    foldValues (xs ++ ys) m = (foldValues xs m).bind (foldValues ys) := by
  induction xs generalizing m with
  | nil => rfl
  | cons v rest ih =>
    cases hpv : parse_food_value v with
    | error e => simp only [List.cons_append, foldValues, hpv, Except.bind]
    | ok o =>
      cases o with
      | none =>
        simp only [List.cons_append, foldValues, hpv]
        exact ih m
      | some p =>
        simp only [List.cons_append, foldValues, hpv]
        exact ih _

theorem foldValues_field_of_not_set (c : BedcaComponent) (vs : List Element) :
    ∀ (m m' : String → FoodValue),
      foldValues vs m = .ok m' →
      (∀ v ∈ vs, ∀ fv, parse_food_value v ≠ .ok (some (c, fv))) →
      m' (COMPONENT_TO_FIELD_MAP c) = m (COMPONENT_TO_FIELD_MAP c) := by
  induction vs with
  | nil =>
    intro m m' h _
    rw [← Except.ok.inj h]
  | cons v rest ih =>
    intro m m' h hnot
    cases hpv : parse_food_value v with
    | error e =>
      simp only [foldValues, hpv] at h
      exact absurd h (by simp)
    | ok o =>
      cases o with
      | none =>
        simp only [foldValues, hpv] at h
        exact ih m m' h (fun w hw => hnot w (List.mem_cons_of_mem v hw))
      | some p =>
        obtain ⟨c', fv'⟩ := p
        simp only [foldValues, hpv] at h
        have hne : c' ≠ c := by
          intro heq
          exact hnot v (List.mem_cons_self v rest) fv' (by rw [hpv, heq])
        have hkey : COMPONENT_TO_FIELD_MAP c ≠ COMPONENT_TO_FIELD_MAP c' :=
          fun hk => hne (COMPONENT_TO_FIELD_MAP_inj c c' hk).symm
        have := ih _ m' h (fun w hw => hnot w (List.mem_cons_of_mem v hw))
        rw [this, if_neg hkey]

theorem foldValues_field_of_last (c : BedcaComponent) (fv : FoodValue)
    (v : Element) (xs ys : List Element) (m m' : String → FoodValue)
    (h : foldValues (xs ++ v :: ys) m = .ok m')
    (hv : parse_food_value v = .ok (some (c, fv)))
    (hlast : ∀ w ∈ ys, ∀ fv', parse_food_value w ≠ .ok (some (c, fv'))) :
    m' (COMPONENT_TO_FIELD_MAP c) = fv := by
  rw [foldValues_append] at h
  cases hxs : foldValues xs m with
  | error e =>
    rw [hxs] at h
    exact absurd h (by simp [Except.bind])
  | ok m1 =>
    rw [hxs] at h
    simp only [Except.bind] at h
    simp only [foldValues, hv] at h
    have := foldValues_field_of_not_set c ys _ m' h hlast
    rw [this, if_pos rfl]

theorem foldValues_skip (v : Element)
    (hskip : parse_food_value v = .ok none) (xs ys : List Element) :
    ∀ m, foldValues (xs ++ v :: ys) m = foldValues (xs ++ ys) m := by
  induction xs with
  | nil =>
    intro m
    simp only [List.nil_append, foldValues, hskip]
  | cons x rest ih =>
    intro m
    cases hpx : parse_food_value x with
    | error e => simp only [List.cons_append, foldValues, hpx]
    | ok o =>
      cases o with
      | none =>
        simp only [List.cons_append, foldValues, hpx]
        exact ih m
      | some p =>
        simp only [List.cons_append, foldValues, hpx]
        exact ih _

theorem parse_food_value_skip_of_unknown (v ce : Element) (s : String)
    (hce : v.find "c_eng_name" = some ce) (hs : ce.text = some s)
    (hunknown : BedcaComponent.fromString s = none) :
    parse_food_value v = .ok none := by
  simp only [parse_food_value, hce, hs, Option.some_bind, hunknown]

theorem parse_food_congr (e e' : Element)
    (hf : foldValues (e.findall "foodvalue") (fun _ => defaultFoodValue)
        = foldValues (e'.findall "foodvalue") (fun _ => defaultFoodValue))
    (h1 : e.find "f_id" = e'.find "f_id")
    (h2 : e.find "f_ori_name" = e'.find "f_ori_name")
    (h3 : e.find "f_eng_name" = e'.find "f_eng_name")
    (h4 : e.find "sci_name" = e'.find "sci_name") :
    parse_food e = parse_food e' := by
  unfold parse_food
  rw [hf, h1, h2, h3, h4]

theorem find_skip_nonmatching (tagName t : String)
    (attrs : List (String × String)) (txt : Option String)
    (kids1 kids2 : List Element) (v : Element)
    (hne : (v.tag == t) = false) :
    (Element.mk tagName attrs txt (kids1 ++ v :: kids2)).find t
      = (Element.mk tagName attrs txt (kids1 ++ kids2)).find t := by
  unfold Element.find Element.findall Element.children
  rw [List.filter_append, List.filter_cons_of_neg (by simp [hne]),
    ← List.filter_append]

/-! ## Claim C2 -/

/-- C2 counterexample: the claim is false as stated.  A foodvalue node with
a recognized component, a non-trace value_type and a v_unit child but no
best_location child makes parse_food_value raise (AttributeError), instead
of yielding the claimed 0.0 value for the absent best_location text. -/
theorem c2_counterexample :
    isTR c2CexNode = false
    ∧ c2CexNode.find "best_location" = none
    ∧ parse_food_value c2CexNode = .error .attributeError :=
  ⟨rfl, rfl, rfl⟩

/-- C2 (amended): for every foodvalue node carrying a recognized component
name and a v_unit child, parse_food_value yields the trace sentinel whenever
the value_type child has text "TR", regardless of any best_location field;
otherwise, when a best_location child is present, it yields the float parsed
from that child's text, 0.0 when the text is missing or unparsable as a
number — but when the best_location child itself is absent in the non-trace
case, parse_food_value raises instead (see the counterexample). -/
theorem c2_trace_overrides_numeric (v ce u : Element) (s : String)
    (c : BedcaComponent)
    (hce : v.find "c_eng_name" = some ce) (hs : ce.text = some s)
    (hc : BedcaComponent.fromString s = some c)
    (hu : v.find "v_unit" = some u) :
    (isTR v = true →
        parse_food_value v = .ok (some (c, ⟨some c, .str "trace", u.text⟩)))
    ∧ (isTR v = false → ∀ bl, v.find "best_location" = some bl →
        parse_food_value v
          = .ok (some (c, ⟨some c, .num (pyFloatOrZero bl.text), u.text⟩)))
    ∧ pyFloatOrZero none = 0
    ∧ (∀ t : String, pyFloat t = none → pyFloatOrZero (some t) = 0) := by
  refine ⟨?_, ?_, rfl, ?_⟩
  · intro htr
    simp only [parse_food_value, hce, hs, Option.some_bind, hc, htr, if_true, hu]
    rfl
  · intro htr bl hbl
    simp only [parse_food_value, hce, hs, Option.some_bind, hc, htr,
      Bool.false_eq_true, if_false, hbl, hu]
    rfl
  · intro t ht
    have ht2 : pyFloatOrZero (some t) = if t = "" then 0 else (pyFloat t).getD 0 := rfl
    rw [ht2]
    split
    · rfl
    · rw [ht]
      rfl

/-- C2 witness: a concrete trace-marked node that also carries a numeric
best_location parses to the trace sentinel. -/
theorem c2_witness :
    isTR c2TraceNode = true
    ∧ parse_food_value c2TraceNode
        = .ok (some (.ZINC, ⟨some .ZINC, .str "trace", some "mg"⟩)) :=
  ⟨rfl,
    (c2_trace_overrides_numeric c2TraceNode (txtChild "c_eng_name" "zinc")
      (txtChild "v_unit" "mg") "zinc" .ZINC rfl rfl rfl rfl).1 rfl⟩

/-! ## Claim C3 -/

/-- C3: every Food returned by parse_food has a FoodNutrients record that is
total by construction (the FoodNutrients structure has every enumerated
field), and any known component to which no foodvalue node of the document
resolves keeps the pre-seeded default placeholder: value 0.0, empty unit,
unset component. -/
theorem c3_missing_nutrient_defaults (element : Element) (food : Food)
    (c : BedcaComponent)
    (hok : parse_food element = .ok food)
    (habsent : ∀ v ∈ element.findall "foodvalue", ∀ fv,
        parse_food_value v ≠ .ok (some (c, fv))) :
    food.nutrients.field c = defaultFoodValue := by
  obtain ⟨m, idEl, esEl, enEl, sciEl, hm, h1, h2, h3, h4, hfood⟩ :=
    parse_food_ok_elim element food hok
  rw [hfood]
  show (mkFoodNutrients m).field c = defaultFoodValue
  rw [field_mkFoodNutrients]
  exact foldValues_field_of_not_set c (element.findall "foodvalue")
    (fun _ => defaultFoodValue) m hm habsent

/-- C3 witness: a concrete detail document with no foodvalue nodes parses to
a Food whose vitamin C field is the default placeholder. -/
theorem c3_witness :
    parse_food c3Doc = .ok c3Food
    ∧ c3Food.nutrients.field .VITAMIN_C = defaultFoodValue :=
  ⟨rfl,
    c3_missing_nutrient_defaults c3Doc c3Food .VITAMIN_C rfl
      (fun v hv _ => absurd hv (List.not_mem_nil v))⟩

/-! ## Claim C4 -/

/-- C4: parse_food_response raises the Not-found error exactly when the
response document has zero food elements, while the list-operation parse
(shared by get_all_foods and search_food_by_name) of a zero-food response is
the empty list rather than an error. -/
theorem c4_not_found_vs_empty_list (root : Element) :
    (parse_food_response root = .error .noFoodError ↔ root.findall "food" = [])
    ∧ (root.findall "food" = [] → parsePreviewList root = []) := by
  constructor
  · constructor
    · intro h
      unfold parse_food_response at h
      cases hf : root.find "food" with
      | none =>
        cases hl : root.findall "food" with
        | nil => rfl
        | cons x xs =>
          unfold Element.find at hf
          rw [hl] at hf
          exact absurd hf (by simp)
      | some f =>
        rw [hf] at h
        exact absurd (parse_food_error_kind f ParseError.noFoodError h) (by decide)
    · intro h
      unfold parse_food_response
      have hf : root.find "food" = none := by
        unfold Element.find
        rw [h]
        rfl
      rw [hf]
  · intro h
    unfold parsePreviewList
    rw [h]
    rfl

/-- C4 witness: a concrete response with no food child gives the Not-found
error from the detail parse and the empty preview list from the list parse. -/
theorem c4_witness :
    parse_food_response c4EmptyDoc = .error .noFoodError
    ∧ parsePreviewList c4EmptyDoc = [] :=
  ⟨(c4_not_found_vs_empty_list c4EmptyDoc).1.mpr rfl,
   (c4_not_found_vs_empty_list c4EmptyDoc).2 rfl⟩

/-! ## Claim C6 -/

/-- C6 counterexample: the claim is false as stated.  A detail-response food
element that lacks the sci_name child entirely makes parse_food raise an
AttributeError (None has no attribute text), instead of returning a Food
with an unset scientific name. -/
theorem c6_counterexample :
    c6NoSciDoc.find "sci_name" = none
    ∧ parse_food c6NoSciDoc = .error .attributeError :=
  ⟨rfl, rfl⟩

/-- C6 (amended): whenever parse_food succeeds, the food element necessarily
had a sci_name child, and the returned scientific_name is that child's text;
in particular a sci_name child that is present but empty yields an unset
scientific_name without an error, while a document whose food element lacks
the sci_name child entirely makes parse_food raise (see the
counterexample). -/
theorem c6_scientific_name_from_child (element : Element) (food : Food)
    (hok : parse_food element = .ok food) :
    (element.find "sci_name").isSome = true
    ∧ food.scientific_name = (element.find "sci_name").bind Element.text := by
  obtain ⟨m, idEl, esEl, enEl, sciEl, hm, h1, h2, h3, h4, hfood⟩ :=
    parse_food_ok_elim element food hok
  refine ⟨by rw [h4]; rfl, ?_⟩
  rw [hfood, h4]
  rfl

/-- C6 witness: a concrete food element whose sci_name child carries no text
parses successfully to an unset scientific name. -/
theorem c6_witness :
    parse_food c6SciDoc = .ok c6SciFood ∧ c6SciFood.scientific_name = none :=
  ⟨rfl, ((c6_scientific_name_from_child c6SciDoc c6SciFood rfl).2).trans rfl⟩

/-! ## Claim C7 -/

/-- C7: a foodvalue node whose declared component name is not in the known
component vocabulary is skipped silently: parsing the document with that
node gives exactly the same result as parsing the document without it — no
error is raised because of it and no FoodNutrients field is set from it. -/
theorem c7_unknown_component_skipped (tagName : String)
    (attrs : List (String × String)) (txt : Option String)
    (kids1 kids2 : List Element) (v ce : Element) (s : String)
    (htag : v.tag = "foodvalue")
    (hce : v.find "c_eng_name" = some ce) (hs : ce.text = some s)
    (hunknown : BedcaComponent.fromString s = none) :
    parse_food (.mk tagName attrs txt (kids1 ++ v :: kids2))
      = parse_food (.mk tagName attrs txt (kids1 ++ kids2)) := by
  have hskip := parse_food_value_skip_of_unknown v ce s hce hs hunknown
  refine parse_food_congr _ _ ?_ ?_ ?_ ?_ ?_
  · have hsplit1 : (Element.mk tagName attrs txt (kids1 ++ v :: kids2)).findall
        "foodvalue"
        = (kids1.filter (fun c => c.tag == "foodvalue")) ++ v ::
          (kids2.filter (fun c => c.tag == "foodvalue")) := by
      unfold Element.findall Element.children
      rw [List.filter_append, List.filter_cons_of_pos (by simp [htag])]
    have hsplit2 : (Element.mk tagName attrs txt (kids1 ++ kids2)).findall
        "foodvalue"
        = (kids1.filter (fun c => c.tag == "foodvalue")) ++
          (kids2.filter (fun c => c.tag == "foodvalue")) := by
      unfold Element.findall Element.children
      rw [List.filter_append]
    rw [hsplit1, hsplit2]
    exact foldValues_skip v hskip _ _ _
  · exact find_skip_nonmatching tagName "f_id" attrs txt kids1 kids2 v
      (by rw [htag]; decide)
  · exact find_skip_nonmatching tagName "f_ori_name" attrs txt kids1 kids2 v
      (by rw [htag]; decide)
  · exact find_skip_nonmatching tagName "f_eng_name" attrs txt kids1 kids2 v
      (by rw [htag]; decide)
  · exact find_skip_nonmatching tagName "sci_name" attrs txt kids1 kids2 v
      (by rw [htag]; decide)

/-- C7 witness: parsing a concrete food element with an unknown-component
foodvalue node equals parsing the same element without that node. -/
theorem c7_witness :
    parse_food (.mk "food" [] none (c7Kids ++ c7UnknownNode :: []))
      = parse_food (.mk "food" [] none (c7Kids ++ [])) :=
  c7_unknown_component_skipped "food" [] none c7Kids [] c7UnknownNode
    (txtChild "c_eng_name" "starch") "starch" rfl rfl rfl rfl

/-! ## Claim C10 -/

/-- C10: when two or more foodvalue nodes resolve to the same known
component, the corresponding FoodNutrients field of the parsed Food is the
FoodValue of the last such node in document order — later values overwrite
earlier ones. -/
theorem c10_last_value_wins (element : Element) (food : Food)
    (c : BedcaComponent) (fv : FoodValue) (xs ys : List Element) (v : Element)
    (hok : parse_food element = .ok food)
    (hsplit : element.findall "foodvalue" = xs ++ v :: ys)
    (hv : parse_food_value v = .ok (some (c, fv)))
    (hlast : ∀ w ∈ ys, ∀ fv', parse_food_value w ≠ .ok (some (c, fv'))) :
    food.nutrients.field c = fv := by
  obtain ⟨m, idEl, esEl, enEl, sciEl, hm, h1, h2, h3, h4, hfood⟩ :=
    parse_food_ok_elim element food hok
  rw [hfood]
  show (mkFoodNutrients m).field c = fv
  rw [field_mkFoodNutrients]
  rw [hsplit] at hm
  exact foldValues_field_of_last c fv v xs ys _ m hm hv hlast

/-- C10 witness: a concrete document with two zinc foodvalue nodes parses to
a Food whose zinc field holds the value of the second (last) node. -/
theorem c10_witness :
    parse_food c10Doc = .ok c10Food
    ∧ c10Food.nutrients.field .ZINC
        = ⟨some .ZINC, .num (pyFloatOrZero (some "9.5")), some "mg"⟩ :=
  ⟨rfl,
    c10_last_value_wins c10Doc c10Food .ZINC
      ⟨some .ZINC, .num (pyFloatOrZero (some "9.5")), some "mg"⟩
      [c10Node1] [] c10Node2
      rfl rfl rfl (fun w hw _ => absurd hw (List.not_mem_nil w))⟩
